import Mathlib

/-!
Verification development for the SLA leasing-assistant repository.

Text is modelled as `List Char` (Python `str` is a sequence of characters).
Python's `json` standard library is modelled by the `Json` inductive and the
fuel-based recursive-descent `jsonLoads` below (numbers restricted to
integers, which covers every JSON value this code base manipulates).
Python dicts are association lists whose insertion keeps the original key
position and replaces the value, exactly like CPython dicts.
-/

/-- Model of a Python/JSON value (numbers restricted to integers). -/
inductive Json where
  | null : Json
  | bool (b : Bool) : Json
  | num (n : Int) : Json
  | str (s : List Char) : Json
  | arr (xs : List Json) : Json
  | obj (fields : List (List Char × Json)) : Json

/-- The `\x7b` character, written via its code point. -/
def lbrace : Char := Char.ofNat 123

/-- The `\x7d` character, written via its code point. -/
def rbrace : Char := Char.ofNat 125

/-- JSON whitespace as accepted by Python's `json.loads`. -/
def isJsonWs (c : Char) : Bool :=
  c = ' ' || c = '\t' || c = '\n' || c = '\r'

/-- Python `str.strip` whitespace test (the whitespace classes relevant here). -/
def isPyWs (c : Char) : Bool :=
  c = ' ' || c = '\t' || c = '\n' || c = '\r' || c = '\x0b' || c = '\x0c'

/-- Model of Python `str.strip()`: drop whitespace from both ends. -/
def pyStrip (s : List Char) : List Char :=
  ((s.dropWhile isPyWs).reverse.dropWhile isPyWs).reverse

/-- Dict insertion with CPython semantics: an existing key keeps its
position and gets the new value; a new key is appended. -/
def setKey : List (List Char × Json) → List Char → Json → List (List Char × Json)
  | [], k, v => [(k, v)]
  | (k', v') :: rest, k, v =>
      if k' = k then (k, v) :: rest else (k', v') :: setKey rest k v

/-- Dict lookup (keys are unique by construction via `setKey`). -/
def getKey (fields : List (List Char × Json)) (k : List Char) : Option Json :=
  match fields with
  | [] => none
  | (k', v) :: rest => if k' = k then some v else getKey rest k

/-- `k in d` for a modelled dict. -/
def hasKeyD (fields : List (List Char × Json)) (k : List Char) : Bool :=
  (getKey fields k).isSome

/-- Body of a JSON string literal: consume characters up to the closing
quote, decoding backslash escapes the way `json.loads` does for the
escapes this code base uses. -/
def parseStringBody : List Char → Option (List Char × List Char)
  | [] => none
  | c :: cs =>
    if c = '"' then some ([], cs)
    else if c = '\\' then
      match cs with
      | [] => none
      | e :: cs' =>
        let d : Char := if e = 'n' then '\n' else if e = 't' then '\t'
          else if e = 'r' then '\r' else e
        match parseStringBody cs' with
        | some (body, rest) => some (d :: body, rest)
        | none => none
    else
      match parseStringBody cs with
      | some (body, rest) => some (c :: body, rest)
      | none => none

/-- Digits of a number literal to a natural value. -/
def digitsVal : List Char → Nat → Nat
  | [], acc => acc
  | c :: cs, acc => digitsVal cs (acc * 10 + (c.toNat - '0'.toNat))

mutual

/-- Fuel-based model of the value parser inside Python's `json.loads`.
Assumes leading whitespace was already skipped. -/
def parseVal : Nat → List Char → Option (Json × List Char)
  | 0, _ => none
  | _ + 1, [] => none
  | fuel + 1, c :: cs =>
    if c = lbrace then
      let s' := (c :: cs).drop 1 |>.dropWhile isJsonWs
      match s' with
      | d :: ds =>
        if d = rbrace then some (Json.obj [], ds)
        else parseObjItems fuel [] (d :: ds)
      | [] => none
    else if c = '[' then
      let s' := cs.dropWhile isJsonWs
      match s' with
      | d :: ds =>
        if d = ']' then some (Json.arr [], ds)
        else parseArrItems fuel [] (d :: ds)
      | [] => none
    else if c = '"' then
      match parseStringBody cs with
      | some (body, rest) => some (Json.str body, rest)
      | none => none
    else if ['n','u','l','l'].isPrefixOf (c :: cs) then
      some (Json.null, cs.drop 3)
    else if ['t','r','u','e'].isPrefixOf (c :: cs) then
      some (Json.bool true, cs.drop 3)
    else if ['f','a','l','s','e'].isPrefixOf (c :: cs) then
      some (Json.bool false, cs.drop 4)
    else if c = '-' || c.isDigit then
      let neg := c = '-'
      let body := if neg then cs else c :: cs
      let ds := body.takeWhile Char.isDigit
      let rest := body.dropWhile Char.isDigit
      if ds = [] then none
      else
        match rest with
        | r :: _ =>
          if r = '.' || r = 'e' || r = 'E' then none
          else
            let n : Int := Int.ofNat (digitsVal ds 0)
            some (Json.num (if neg then -n else n), rest)
        | [] =>
          let n : Int := Int.ofNat (digitsVal ds 0)
          some (Json.num (if neg then -n else n), rest)
    else none

/-- Items of a JSON array after at least one value is known to follow. -/
def parseArrItems : Nat → List Json → List Char → Option (Json × List Char)
  | 0, _, _ => none
  | fuel + 1, acc, s =>
    match parseVal fuel (s.dropWhile isJsonWs) with
    | none => none
    | some (v, rest) =>
      match rest.dropWhile isJsonWs with
      | ',' :: rest' => parseArrItems fuel (acc ++ [v]) (rest'.dropWhile isJsonWs)
      | r :: rest' =>
        if r = ']' then some (Json.arr (acc ++ [v]), rest') else none
      | [] => none

/-- Items of a JSON object after at least one member is known to follow. -/
def parseObjItems : Nat → List (List Char × Json) → List Char →
    Option (Json × List Char)
  | 0, _, _ => none
  | fuel + 1, acc, s =>
    match s.dropWhile isJsonWs with
    | '"' :: ks =>
      match parseStringBody ks with
      | none => none
      | some (key, afterKey) =>
        match afterKey.dropWhile isJsonWs with
        | ':' :: vs =>
          match parseVal fuel (vs.dropWhile isJsonWs) with
          | none => none
          | some (v, rest) =>
            let acc' := setKey acc key v
            match rest.dropWhile isJsonWs with
            | ',' :: rest' => parseObjItems fuel acc' rest'
            | r :: rest' =>
              if r = rbrace then some (Json.obj acc', rest') else none
            | [] => none
        | _ => none
    | _ => none

end

/-- Model of Python's `json.loads`: parse one value, then require only
trailing whitespace; any other outcome is a `JSONDecodeError`, modelled
as `none`. -/
def jsonLoads (s : List Char) : Option Json :=
  match parseVal (s.length + 1) (s.dropWhile isJsonWs) with
  | some (v, rest) => if rest.dropWhile isJsonWs = [] then some v else none
  | none => none

/-- `key in result` on a parsed value: only dicts contain keys. -/
def jsonHasKey (j : Json) (k : List Char) : Bool :=
  match j with
  | Json.obj fields => hasKeyD fields k
  | _ => false

/-! ## Models of the `re` operations used by `langcahin.py`,
`streamlit_app.py` and `Inventory_agent_lang.py`.

Each Python regex in those files is simple enough to admit a direct
scanning model; backtracking is irrelevant for them because every
character a greedy sub-pattern could give back belongs to a class
disjoint from what the following sub-pattern accepts. -/

/-- Split at the first occurrence of `pat`: returns the part before it and
the part after it, or `none` if `pat` does not occur.  (`pat` is assumed
nonempty, as for every pattern in the source.) -/
def splitAtSub (pat : List Char) : List Char → Option (List Char × List Char)
  | [] => if pat = [] then some ([], []) else none
  | c :: cs =>
    if pat.isPrefixOf (c :: cs) then some ([], (c :: cs).drop pat.length)
    else
      match splitAtSub pat cs with
      | some (before, after) => some (c :: before, after)
      | none => none

/-- Three backticks, the fence marker. -/
def threeTicks : List Char := ['`', '`', '`']

/-- Model of `re.search(r'```(?:json)?\s*(.*?)```', text, re.DOTALL)`
from `extract_json_safely`: the captured group of the first fenced block,
if any. -/
def extractFenced (s : List Char) : Option (List Char) :=
  match splitAtSub threeTicks s with
  | none => none
  | some (_, rest) =>
    let rest := if ['j','s','o','n'].isPrefixOf rest then rest.drop 4 else rest
    let rest := rest.dropWhile isPyWs
    match splitAtSub threeTicks rest with
    | some (captured, _) => some captured
    | none => none

/-- One scanning step of `re.sub(r'```(?:json)?\s*|\s*```', '', s)` from
`fix_incomplete_json` (fuel bounds the number of steps; each step consumes
at least one character). -/
def stripFencesGo : Nat → List Char → List Char
  | 0, s => s
  | _ + 1, [] => []
  | fuel + 1, c :: cs =>
    if threeTicks.isPrefixOf (c :: cs) then
      let r := (c :: cs).drop 3
      let r := if ['j','s','o','n'].isPrefixOf r then r.drop 4 else r
      stripFencesGo fuel (r.dropWhile isPyWs)
    else
      let ws := (c :: cs).takeWhile isPyWs
      if ws ≠ [] && threeTicks.isPrefixOf ((c :: cs).drop ws.length) then
        stripFencesGo fuel ((c :: cs).drop (ws.length + 3))
      else c :: stripFencesGo fuel cs

/-- Model of `re.sub(r'```(?:json)?\s*|\s*```', '', s)`. -/
def stripFences (s : List Char) : List Char :=
  stripFencesGo (s.length + 1) s

/-- Fuel-based scan of `re.search(r'"KEY"\s*:\s*(\x7b[^\x7d]*\x7d)', s)`:
the brace-delimited captured group after the first occurrence of the quoted
key that is followed by the colon-and-braces shape (later occurrences are
tried when the shape fails, as `re.search` resumes its scan; each retry
consumes at least the quoted key, so the input length bounds the fuel). -/
def searchKeyObjGo (key : List Char) : Nat → List Char → Option (List Char)
  | 0, _ => none
  | fuel + 1, s =>
    match splitAtSub ('"' :: key ++ ['"']) s with
    | none => none
    | some (_, after) =>
      let retry := searchKeyObjGo key fuel after
      let r := after.dropWhile isPyWs
      match r with
      | ':' :: r1 =>
        match r1.dropWhile isPyWs with
        | b :: r3 =>
          if b = lbrace then
            let body := r3.takeWhile (fun c => decide (c ≠ rbrace))
            match r3.dropWhile (fun c => decide (c ≠ rbrace)) with
            | e :: _ => if e = rbrace then some (lbrace :: body ++ [rbrace])
                        else retry
            | [] => retry
          else retry
        | [] => retry
      | _ => retry

/-- Model of `re.search(r'"KEY"\s*:\s*(\x7b[^\x7d]*\x7d)', s)`. -/
def searchKeyObj (key s : List Char) : Option (List Char) :=
  searchKeyObjGo key (s.length + 1) s

/-- Fuel-based scan of `re.search(r'"KEY"(\s*)?:\s*"([^"]*)"', s)`.
`wsColon` selects whether the pattern has `\s*` before the colon
(`langcahin.py` patterns do; the `"message":` pattern in
`Inventory_agent_lang.py` does not). -/
def searchKeyStrGo (key : List Char) (wsColon : Bool) :
    Nat → List Char → Option (List Char)
  | 0, _ => none
  | fuel + 1, s =>
    match splitAtSub ('"' :: key ++ ['"']) s with
    | none => none
    | some (_, after) =>
      let retry := searchKeyStrGo key wsColon fuel after
      let r := if wsColon then after.dropWhile isPyWs else after
      match r with
      | ':' :: r1 =>
        match r1.dropWhile isPyWs with
        | q :: r3 =>
          if q = '"' then
            let body := r3.takeWhile (fun c => decide (c ≠ '"'))
            match r3.dropWhile (fun c => decide (c ≠ '"')) with
            | _ :: _ => some body
            | [] => retry
          else retry
        | [] => retry
      | _ => retry

/-- Model of `re.search(r'"KEY"\s*:\s*"([^"]*)"', s)` (or the variant
without `\s*` before the colon). -/
def searchKeyStr (key : List Char) (wsColon : Bool) (s : List Char) :
    Option (List Char) :=
  searchKeyStrGo key wsColon (s.length + 1) s

/-- Fuel-based scan of
`re.search(r'"bestMatchingProperties"\s*:\s*\[(.*?)\]', s, re.DOTALL)`. -/
def searchKeyArrGo (key : List Char) : Nat → List Char → Option (List Char)
  | 0, _ => none
  | fuel + 1, s =>
    match splitAtSub ('"' :: key ++ ['"']) s with
    | none => none
    | some (_, after) =>
      let retry := searchKeyArrGo key fuel after
      match after.dropWhile isPyWs with
      | ':' :: r1 =>
        match r1.dropWhile isPyWs with
        | b :: r3 =>
          if b = '[' then
            let body := r3.takeWhile (fun c => decide (c ≠ ']'))
            match r3.dropWhile (fun c => decide (c ≠ ']')) with
            | _ :: _ => some body
            | [] => retry
          else retry
        | [] => retry
      | _ => retry

/-- Model of `re.search(r'"KEY"\s*:\s*\[(.*?)\]', s, re.DOTALL)`. -/
def searchKeyArr (key s : List Char) : Option (List Char) :=
  searchKeyArrGo key (s.length + 1) s

/-- Model of `re.findall(r'\x7b(.*?)\x7d', s, re.DOTALL)`: the lazily
captured bodies of non-overlapping brace pairs, scanned left to right. -/
def findallBraced : Nat → List Char → List (List Char)
  | 0, _ => []
  | fuel + 1, s =>
    match splitAtSub [lbrace] s with
    | none => []
    | some (_, rest) =>
      match splitAtSub [rbrace] rest with
      | none => []
      | some (body, rest') => body :: findallBraced fuel rest'

/-! ## Embedding of `langcahin.py` (`fix_incomplete_json`,
`extract_json_safely`, `extract_property_info`). -/

/-- A modelled Python dict with string keys and JSON values. -/
abbrev JObj := List (List Char × Json)

/-- Python truthiness of a JSON value (`if value:`). -/
def pyTruthy : Json → Bool
  | Json.null => false
  | Json.bool b => b
  | Json.num n => decide (n ≠ 0)
  | Json.str s => decide (s ≠ [])
  | Json.arr xs => !xs.isEmpty
  | Json.obj fs => !fs.isEmpty

mutual

/-- Python `==` between JSON values (Python `None` is `Json.null`). -/
def jsonEq : Json → Json → Bool
  | Json.null, Json.null => true
  | Json.bool a, Json.bool b => a = b
  | Json.num a, Json.num b => a = b
  | Json.str a, Json.str b => a = b
  | Json.arr a, Json.arr b => jsonEqList a b
  | Json.obj a, Json.obj b => jsonEqObj a b
  | _, _ => false

def jsonEqList : List Json → List Json → Bool
  | [], [] => true
  | a :: as', b :: bs => jsonEq a b && jsonEqList as' bs
  | _, _ => false

def jsonEqObj : JObj → JObj → Bool
  | [], [] => true
  | (k, v) :: as', (k', v') :: bs => decide (k = k') && jsonEq v v' && jsonEqObj as' bs
  | _, _ => false

end

/-- Python `d.get(k)`: `None` (modelled `Json.null`) when the key is
absent. -/
def pyGet (d : JObj) (k : String) : Json :=
  (getKey d k.data).getD Json.null

/-- Python `d.get(k, default)`. -/
def pyGetD (d : JObj) (k : String) (v : Json) : Json :=
  (getKey d k.data).getD v

/-- CPython `dict.update`: fold the new pairs in with `setKey`. -/
def dictUpdate (d : JObj) (new : JObj) : JObj :=
  new.foldl (fun r p => setKey r p.1 p.2) d

/-- Embedding of `fix_incomplete_json` (`langcahin.py` 1031–1097): strip
fence markers, then recover the known sections (`Financial Status`,
`Final Property Recommendation`, `bestMatchingProperties`) by regex; the
result dict, or `none` when nothing was recovered (the `try`/`except`
around each section is the fall-through to the next step). -/
def fix_incomplete_json (json_str : List Char) : Option JObj :=
  let clean_str := stripFences json_str
  let result : JObj := []
  let result :=
    match searchKeyObj "Financial Status".data clean_str with
    | none => result
    | some fs0 =>
      let fs1 := if fs0.getLast? = some rbrace then fs0 else fs0 ++ [rbrace]
      match jsonLoads (lbrace :: ("\"Financial_Status\": ".data ++ fs1 ++ [rbrace])) with
      | some (Json.obj fd) => dictUpdate result fd
      | _ => result
  let result :=
    match searchKeyObj "Final Property Recommendation".data clean_str with
    | none => result
    | some ps0 =>
      let ps1 := if ps0.getLast? = some rbrace then ps0 else ps0 ++ [rbrace]
      match jsonLoads (lbrace :: ("\"Final_Property_Recommendation\": ".data ++ ps1 ++ [rbrace])) with
      | some (Json.obj pd) => dictUpdate result pd
      | _ =>
        match searchKeyStr "property".data true clean_str with
        | some name => setKey result "property".data (Json.obj [("name".data, Json.str name)])
        | none => result
  let result :=
    match searchKeyArr "bestMatchingProperties".data clean_str with
    | none => result
    | some arrBody =>
      let bodies := findallBraced (arrBody.length + 1) arrBody
      let best := bodies.map (fun prop =>
        let d : JObj := []
        let d := match searchKeyStr "name".data true prop with
          | some n => setKey d "name".data (Json.str n)
          | none => d
        let d := match searchKeyStr "address".data true prop with
          | some a => setKey d "address".data (Json.str a)
          | none => d
        Json.obj d)
      match bodies with
      | [] => result
      | _ => setKey result "bestMatchingProperties".data (Json.arr best)
  match result with
  | [] => none
  | _ => some result

/-- Step 2 of the `extract_json_safely` cascade: extract the first fenced
code block and parse its interior (`json.loads` inside the inner `try`). -/
def fencedLoads (response_text : List Char) : Option Json :=
  match extractFenced response_text with
  | some inner => jsonLoads inner
  | none => none

/-- Embedding of `extract_json_safely` (`langcahin.py` 986–1029) on string
input (a dict argument is returned unchanged by the source).  The cascade:
direct `json.loads` of the raw text; else the first fenced code block; else
`fix_incomplete_json`; else the error record.  Every failure is caught, so
the function is total. -/
def extract_json_safely (response_text context : List Char) : Json :=
  match jsonLoads response_text with
  | some v => v
  | none =>
    match fencedLoads response_text with
    | some v => v
    | none =>
      match fix_incomplete_json response_text with
      | some d => Json.obj d
      | none =>
        Json.obj [("error".data, Json.str ("Failed to parse ".data ++ context)),
                  ("raw_response".data, Json.str response_text)]

/-- The hard-coded default property name in `extract_property_info`. -/
def bristol : List Char := "Bristol Station".data

/-- Embedding of `extract_property_info` (`langcahin.py` 1099–1166) for
dict arguments.  The one uncaught exception site in the source
(`final_analysis.get('property', \x7b\x7d).get('name', '')` when that value is
not a dict) is modelled as `Except.error`. -/
def extract_property_info (final_analysis inventory_matches : JObj) :
    Except Unit JObj :=
  let pr : Json :=
    match getKey final_analysis "Final Property Recommendation".data with
    | some v => v
    | none => pyGetD final_analysis "Final_Property_Recommendation" (Json.obj [])
  let pi : JObj :=
    match pr with
    | Json.obj prf =>
      setKey (setKey [] "property".data (pyGetD prf "property" (Json.str [])))
        "reason".data (pyGetD prf "reason" (Json.str []))
    | _ => []
  let step2 : Except Unit JObj :=
    if ¬ pyTruthy (pyGet pi "property") ∧ hasKeyD final_analysis "property".data then
      match pyGetD final_analysis "property" (Json.obj []) with
      | Json.obj d => Except.ok (setKey pi "property".data (pyGetD d "name" (Json.str [])))
      | _ => Except.error ()
    else Except.ok pi
  match step2 with
  | Except.error e => Except.error e
  | Except.ok pi =>
    let pi :=
      if ¬ pyTruthy (pyGet pi "property") then
        match pyGetD final_analysis "raw_response" (Json.str []) with
        | Json.str raw =>
          match searchKeyStr "property".data true raw with
          | some name => setKey pi "property".data (Json.str name)
          | none => pi
        | _ => pi
      else pi
    let pi :=
      if ¬ pyTruthy (pyGet pi "property") then
        setKey pi "property".data (Json.str bristol)
      else pi
    let pi :=
      match pyGetD inventory_matches "bestMatchingProperties" (Json.arr []) with
      | Json.arr props =>
        let found := props.find? (fun p =>
          match p with
          | Json.obj d => jsonEq (pyGet d "name") (pyGet pi "property")
          | _ => false)
        let pi :=
          match found with
          | some (Json.obj d) =>
            let pi := setKey pi "address".data (pyGetD d "address" (Json.str []))
            let pi := setKey pi "rentRange".data (pyGetD d "rentRange" (Json.str []))
            let pi := setKey pi "beds".data (pyGetD d "beds" (Json.str []))
            let pi := setKey pi "baths".data (pyGetD d "baths" (Json.str []))
            let pi := setKey pi "map_link".data (pyGetD d "mapLink" (Json.str []))
            let pi := setKey pi "virtual_tour".data (pyGetD d "virtualTour" (Json.str []))
            setKey pi "photos".data (pyGetD d "photos" (Json.arr []))
          | _ => pi
        if ¬ pyTruthy (pyGet pi "map_link") then
          match pyGetD inventory_matches "raw_response" (Json.str []) with
          | Json.str raw =>
            let pi :=
              match searchKeyStr "mapLink".data true raw with
              | some m => setKey pi "map_link".data (Json.str m)
              | none => pi
            match searchKeyStr "virtualTour".data true raw with
            | some t => setKey pi "virtual_tour".data (Json.str t)
            | none => pi
          | _ => pi
        else pi
      | _ => pi
    let pi :=
      if ¬ pyTruthy (pyGet pi "address") ∧ jsonEq (pyGet pi "property") (Json.str bristol) then
        let pi := setKey pi "address".data (Json.str "704 Greenwood Cir, Naperville, IL 60563".data)
        let pi := setKey pi "rentRange".data (Json.str "$2,220 - $2,385".data)
        let pi := setKey pi "beds".data (Json.num 2)
        setKey pi "baths".data (Json.num 2)
      else pi
    Except.ok pi

/-! ## Embedding of `streamlit_app.py` (`clean_ansi_codes`,
`parse_json_response`). -/

/-- First character class of the ANSI escape regex in `clean_ansi_codes`:
`@`–`Z` plus `\`–`_` (the class reads at-to-Z, then backslash-to-underscore,
since the doubled backslash before `-_` forms a range). -/
def ansiFinalShort (c : Char) : Bool :=
  (0x40 ≤ c.toNat && c.toNat ≤ 0x5A) || (0x5C ≤ c.toNat && c.toNat ≤ 0x5F)

/-- CSI parameter byte, code points `0x30`–`0x3F`. -/
def ansiParam (c : Char) : Bool := 0x30 ≤ c.toNat && c.toNat ≤ 0x3F

/-- CSI intermediate byte, code points `0x20`–`0x2F`. -/
def ansiInter (c : Char) : Bool := 0x20 ≤ c.toNat && c.toNat ≤ 0x2F

/-- CSI final byte `[@-~]`. -/
def ansiFinal (c : Char) : Bool := 0x40 ≤ c.toNat && c.toNat ≤ 0x7E

/-- Attempt to match the part of the ANSI regex after the escape
character; returns the rest of the input on success.  (No backtracking is
needed: every character a greedy class could give back is below `0x40`,
so it can never serve as the final byte.) -/
def matchAnsi : List Char → Option (List Char)
  | [] => none
  | c :: cs =>
    if ansiFinalShort c then some cs
    else if c = '[' then
      let r := cs.dropWhile ansiParam
      let r := r.dropWhile ansiInter
      match r with
      | f :: rest => if ansiFinal f then some rest else none
      | [] => none
    else none

/-- Fuel-based scan of `re.sub` with the ANSI regex: each step consumes at
least one character, so the input length is enough fuel. -/
def cleanAnsiGo : Nat → List Char → List Char
  | 0, s => s
  | _ + 1, [] => []
  | fuel + 1, c :: cs =>
    if c = '\x1b' then
      match matchAnsi cs with
      | some rest => cleanAnsiGo fuel rest
      | none => c :: cleanAnsiGo fuel cs
    else c :: cleanAnsiGo fuel cs

/-- Embedding of `clean_ansi_codes` (`streamlit_app.py` 31–34). -/
def clean_ansi_codes (s : List Char) : List Char :=
  cleanAnsiGo s.length s

/-- The five required top-level fields of `parse_json_response`. -/
def requiredFields : List (List Char) :=
  ["client_profile".data, "inventory_matches".data, "team_analysis".data,
   "final_recommendation".data, "message_draft".data]

/-- The error record shape returned by every failure path of
`parse_json_response`: an `error` entry followed by the five required
fields, each an empty dict.  (The precise exception text interpolated into
the `error` string is abstracted to the fixed message prefix.) -/
def errRecord (msg : List Char) : JObj :=
  ("error".data, Json.str msg) ::
    requiredFields.map (fun f => (f, Json.obj []))

/-- `isinstance(response_data[field].get('selected_property'), dict)` for
the special handling loop. -/
def selIsDict (sub : JObj) : Bool :=
  match getKey sub "selected_property".data with
  | some (Json.obj _) => true
  | _ => false

/-- The tail of the special handling loop body (lines 68–79), applied to
the dict `d1` that already carries the mirrored `<field>_error` entry. -/
def specialHandleTail (d1 sub : JObj) (f : List Char) : JObj :=
  if hasKeyD sub "raw_response".data then
    if f = "final_recommendation".data && selIsDict sub then d1
    else if f = "message_draft".data then
      match (getKey sub "raw_response".data).getD Json.null with
      | Json.str raw =>
        match searchKeyStr "sms".data true raw with
        | some m => setKey d1 f (Json.obj (setKey sub "sms".data (Json.str m)))
        | none => d1
      | _ => d1
    else d1
  else d1

/-- The special handling loop body of `parse_json_response` (lines 63–79):
for a field holding a dict with an `error` entry, mirror the error under
`<field>_error` and, for a `message_draft` with a string `raw_response`,
recover the `sms` text by regex. -/
def specialHandle (d : JObj) (f : List Char) : JObj :=
  match getKey d f with
  | some (Json.obj sub) =>
    if hasKeyD sub "error".data then
      specialHandleTail
        (setKey d (f ++ "_error".data) ((getKey sub "error".data).getD Json.null))
        sub f
    else d
  | _ => d

/-- The field-defaulting loop body of `parse_json_response` (lines 57–60):
a missing required field becomes an empty dict. -/
def addDefault (d : JObj) (f : List Char) : JObj :=
  if hasKeyD d f then d else setKey d f (Json.obj [])

/-- Embedding of `parse_json_response` (`streamlit_app.py` 36–101). A
non-dict parse result makes the field-defaulting loop raise `TypeError`
inside the `try`, which the blanket `except` turns into the error record,
so that path is modelled directly as the error record. -/
def parse_json_response (s : List Char) : JObj :=
  let clean := clean_ansi_codes s
  if clean.isEmpty || clean.all isPyWs then
    errRecord "Empty response received".data
  else
    match jsonLoads clean with
    | none => errRecord "Invalid JSON response".data
    | some (Json.obj fields) =>
      let d := requiredFields.foldl addDefault fields
      requiredFields.foldl specialHandle d
    | some _ => errRecord "Error processing response".data

/-! ## Embedding of `Inventory_agent_lang.py`: the Discord send
(`sendDiscordSanityCheckNoteAlert`), the chunk loops of
`send_comprehensive_discord_analysis`, the response-processing stage of
`find_property_match`, and `calculate_neighborhood_proximity`. -/

/-- Fuel-based model of Python `str.replace(pat, repl)` (left-to-right,
non-overlapping; every pattern in the source is nonempty, so each step
consumes at least one character). -/
def replaceAllGo (pat repl : List Char) : Nat → List Char → List Char
  | 0, s => s
  | _ + 1, [] => []
  | fuel + 1, c :: cs =>
    if pat.isPrefixOf (c :: cs) then
      repl ++ replaceAllGo pat repl fuel ((c :: cs).drop pat.length)
    else c :: replaceAllGo pat repl fuel cs

/-- Model of Python `str.replace(pat, repl)`. -/
def replaceAll (pat repl s : List Char) : List Char :=
  replaceAllGo pat repl (s.length + 1) s

/-- The content preparation of `sendDiscordSanityCheckNoteAlert`
(lines 44–52): the two `replace` calls, then the hard truncation of any
payload over 2000 characters to its first 1950 characters plus a
truncation marker. -/
def prepareContent (textContent : List Char) : List Char :=
  let content := replaceAll "```json\n\x7b".data "```json\n\x7b\n  ".data textContent
  let content := replaceAll "\\\"".data "\"".data content
  if 2000 < content.length then content.take 1950 ++ "\n... (truncated)".data
  else content

/-- Outcome of one `requests.post` call, as decided by the injected
transport. -/
inductive SendOutcome where
  | status (code : Nat) : SendOutcome
  | raise : SendOutcome

/-- The simplified fallback content posted on an HTTP 400 (line 71). -/
def simpleContent : List Char :=
  "🚨 **Analysis Complete** - Content formatting issue prevented full display".data

/-- Embedding of `sendDiscordSanityCheckNoteAlert` (lines 40–83) against a
transport deciding each post's outcome.  Returns the value the function
returns (the first response's status, or `none` when an exception was
caught) together with the log of payloads actually posted.  On a 400 a
single simplified message with different content is posted and the
original response object is still returned; every exception is caught, so
the embedding is total. -/
def sendDiscordSanityCheckNoteAlert (transport : List Char → SendOutcome)
    (textContent : List Char) : Option Nat × List (List Char) :=
  let content := prepareContent textContent
  match transport content with
  | SendOutcome.raise => (none, [content])
  | SendOutcome.status code =>
    if code = 400 then
      match transport simpleContent with
      | SendOutcome.raise => (none, [content, simpleContent])
      | SendOutcome.status _ => (some 400, [content, simpleContent])
    else (some code, [content])

/-- The sequential chunk delivery of `send_comprehensive_discord_analysis`:
each chunk goes through `sendDiscordSanityCheckNoteAlert`, whose blanket
exception handler means the loop always proceeds to the next chunk. -/
def dispatchChunks (transport : List Char → SendOutcome)
    (chunks : List (List Char)) : List (Option Nat × List (List Char)) :=
  chunks.map (sendDiscordSanityCheckNoteAlert transport)

/-- Fuel-based model of the character-chunk fallback splitter
(lines 769–776): `complete_json[i:i+chunk_size]` for `i` in steps of
`chunk_size`. -/
def charChunksGo : Nat → Nat → List Char → List (List Char)
  | 0, _, _ => []
  | _ + 1, _, [] => []
  | fuel + 1, n, c :: cs => (c :: cs).take n :: charChunksGo fuel n ((c :: cs).drop n)

/-- The character-chunk fallback splitter (`chunk_size = 1500` at the call
site). -/
def charChunks (n : Nat) (s : List Char) : List (List Char) :=
  charChunksGo (s.length + 1) n s

/-- Python `str.split` on a newline. -/
def splitOnNl : List Char → List (List Char)
  | [] => [[]]
  | c :: cs =>
    if c = '\n' then [] :: splitOnNl cs
    else
      match splitOnNl cs with
      | l :: ls => (c :: l) :: ls
      | [] => [[c]]

/-- The line-accumulating splitter of `send_comprehensive_discord_analysis`
(lines 722–732 and 784–794): grow `current_chunk` line by line while the
next line still fits under the limit, emitting the accumulated chunk
otherwise.  Returns the list of emitted payloads. -/
def lineChunksGo (limit : Nat) (cur : List Char) :
    List (List Char) → List (List Char)
  | [] => if cur.isEmpty then [] else [cur]
  | line :: rest =>
    if cur.length + (line.length + 1) ≤ limit then
      lineChunksGo limit (cur ++ line ++ ['\n']) rest
    else
      (if cur.isEmpty then [] else [cur]) ++
        lineChunksGo limit (line ++ ['\n']) rest

/-- The line splitter applied to a chunk, as `chunk.split('\n')` feeds the
accumulation loop. -/
def lineChunks (limit : Nat) (chunk : List Char) : List (List Char) :=
  lineChunksGo limit [] (splitOnNl chunk)

/-- The fixed fallback message of `find_property_match` (line 1011). -/
def noMatchMessage : List Char :=
  "Unable to find suitable property match at this time.".data

/-- Embedding of the response-processing stage of `find_property_match`
(lines 952–961): strip whitespace and the ` ```json `/` ``` ` wrappers. -/
def find_property_match_clean (response : List Char) : List Char :=
  let response := pyStrip response
  let response :=
    if "```json".data.isPrefixOf response then response.drop 7 else response
  let response :=
    if "```".data.isSuffixOf response then response.take (response.length - 3)
    else response
  pyStrip response

/-- Embedding of the response-processing stage of `find_property_match`
(lines 952–1018): clean, parse; on a parse failure recover the
`"message"` field by regex, and otherwise fall back to the fixed no-match
message.  (The returned JSON string is modelled as the JSON value it
serializes.) -/
def find_property_match_parse (response : List Char) : Json :=
  let response := find_property_match_clean response
  match jsonLoads response with
  | some j => j
  | none =>
    match searchKeyStr "message".data false response with
    | some m => Json.obj [("message".data, Json.str m)]
    | none => Json.obj [("message".data, Json.str noMatchMessage)]

/-- Outcome of one `geocoder.geocode` call: a location, no location, or a
raised exception. -/
inductive GeoResult where
  | ok (loc : Option (ℚ × ℚ)) : GeoResult
  | raise : GeoResult

/-- Embedding of `calculate_neighborhood_proximity` (lines 1054–1067)
against an injected geocoder and geodesic-distance collaborator.  `⊤`
models Python's `float('inf')`: returned when either geocode call raises
or yields no location, never by raising. -/
def calculate_neighborhood_proximity (geocode : List Char → GeoResult)
    (geodesicMiles : ℚ × ℚ → ℚ × ℚ → ℚ)
    (client_address property_address : List Char) : WithTop ℚ :=
  match geocode client_address with
  | GeoResult.raise => ⊤
  | GeoResult.ok cl =>
    match geocode property_address with
    | GeoResult.raise => ⊤
    | GeoResult.ok pl =>
      match cl, pl with
      | some c, some p => (geodesicMiles c p : ℚ)
      | _, _ => ⊤

/-! ## RankingEngine, modelled from the spec.

The repository performs ranking, net-effective-rent computation and
previous-offer suppression by instructing the generative model (the prompt
template of `InventoryAgent`, lines 113–251 of `Inventory_agent_lang.py`);
no deterministic ranking code exists under `src/`.  Following the status
rules, the RankingEngine of spec §4.2 is modelled from the spec's words
and the prompt's stated formulas. -/

/-- Modelled from the spec: tri-state amenity requirement
(required/declined/unspecified). -/
inductive TriState where
  | required : TriState
  | declined : TriState
  | unspecified : TriState
deriving DecidableEq

/-- Modelled from the spec: a move-in special in structured form
(`weeks_free`/`flat_discount`), extended with the whole-months form used by
the prompt's own examples ("1 month free"), or no special. -/
inductive MoveInSpecial where
  | weeksFree (weeks : ℚ) : MoveInSpecial
  | flatDiscount (value : ℚ) : MoveInSpecial
  | monthsFree (months : ℚ) : MoveInSpecial
  | noSpecial : MoveInSpecial
deriving DecidableEq

/-- Modelled from the spec: RequirementSpec (§3); dates are day numbers. -/
structure RequirementSpec where
  budgetMin : Option ℚ
  budgetMax : Option ℚ
  moveInLatest : Option ℚ
  beds : Option ℕ
  baths : Option ℕ
  neighborhoods : List String
  zips : List String
  parking : TriState
  pets : TriState
  washerDryer : TriState
deriving DecidableEq

/-- Modelled from the spec: ListingCandidate (§3).  `rent` is the listed
monthly rent as a (low, high) range (a point rent has low = high), `none`
when no usable rent figure exists; `distanceMiles` is the resolved
distance, `none` when the geocoding collaborator could not resolve it
(Python `float('inf')`). -/
structure ListingCandidate where
  id : String
  address : String
  neighborhood : String
  rent : Option (ℚ × ℚ)
  beds : Option ℕ
  baths : Option ℕ
  special : MoveInSpecial
  distanceMiles : Option ℚ
  availability : Option ℚ
  parking : Option Bool
  pets : Option Bool
  washerDryer : Option Bool
deriving DecidableEq

/-- Modelled from the spec: configuration of the scoring functions
(`maxConsideredMiles`, the timeline grace window). -/
structure RankConfig where
  maxConsideredMiles : ℚ
  graceWindow : ℚ
deriving DecidableEq

/-- Modelled from the spec: RankedMatch (§3).  Excluded candidates carry a
reason and zeroed scores ("filtered rather than scored") and rank 0;
scored candidates get dense ranks 1..N. -/
structure RankedMatch where
  cand : ListingCandidate
  ner : ℚ
  scoreProximity : ℚ
  scoreBudget : ℚ
  scoreSpecs : ℚ
  scoreTimeline : ℚ
  scoreExtras : ℚ
  composite : ℚ
  rank : ℕ
  exclusionReason : Option String
deriving DecidableEq

/-- Modelled from the spec: address normalization for previous-offer
matching (case-insensitive, surrounding whitespace ignored). -/
def normalizeAddress (s : String) : String :=
  String.mk ((pyStrip s.data).map Char.toLower)

/-- Modelled from the spec: a candidate matches a previous offer when its
identifier or normalized address appears in the offer set. -/
def offeredPreviously (prev : List String) (c : ListingCandidate) : Bool :=
  prev.contains c.id || prev.contains (normalizeAddress c.address)

/-- Modelled from the spec (§4.2 step 1): the exclusion pass — previously
offered, or no usable rent figure. -/
def exclusionReasonFor (prev : List String) (c : ListingCandidate) :
    Option String :=
  if offeredPreviously prev c then some "previously offered"
  else if c.rent.isNone then some "no usable rent"
  else none

/-- Modelled from the spec and the prompt (lines 220–226):
`totalMoveInSavings` — `weeks_free → monthlyRent × (weeks/4.345)`,
`flat_discount → value`, whole months free → monthlyRent × months, no
special → 0. -/
def totalMoveInSavings (monthlyRent : ℚ) : MoveInSpecial → ℚ
  | MoveInSpecial.weeksFree w => monthlyRent * (w / (4345/1000))
  | MoveInSpecial.flatDiscount v => v
  | MoveInSpecial.monthsFree m => monthlyRent * m
  | MoveInSpecial.noSpecial => 0

/-- Modelled from the spec (§4.2 step 2) and the prompt's formula
"(Monthly Rent × 12 - Total Move-in Savings) ÷ 12" under a 12-month
lease. -/
def netEffectiveRent (monthlyRent : ℚ) (sp : MoveInSpecial) : ℚ :=
  (monthlyRent * 12 - totalMoveInSavings monthlyRent sp) / 12

/-- Modelled from the spec: the rent figure used for NER — the midpoint
when the rent is a range. -/
def rentMidpoint (r : ℚ × ℚ) : ℚ := (r.1 + r.2) / 2

/-- Modelled from the spec (§4.2 step 3): proximity score
`1 − min(distanceMiles / maxConsideredMiles, 1)`; an unresolved distance
scores 0 (it never excludes the candidate). -/
def proximityScore (cfg : RankConfig) : Option ℚ → ℚ
  | none => 0
  | some d => 1 - min (d / cfg.maxConsideredMiles) 1

/-- Modelled from the spec (§4.2 step 3): budget score — 1 inside the
budget, linear decay to 0 at twice the nearest bound's distance outside,
floored at 0; a missing bound does not constrain. -/
def budgetScore (spec : RequirementSpec) (ner : ℚ) : ℚ :=
  let belowMin := match spec.budgetMin with
    | some lo => if ner < lo then some lo else none
    | none => none
  let aboveMax := match spec.budgetMax with
    | some hi => if hi < ner then some hi else none
    | none => none
  match belowMin, aboveMax with
  | none, none => 1
  | some lo, _ => max 0 (1 - (lo - ner) / lo)
  | _, some hi => max 0 (1 - (ner - hi) / hi)

/-- Modelled from the spec (§4.2 step 3): specs score — 1 when bedroom and
bathroom counts both meet or exceed the requirement (or the requirement is
unspecified), 0.5 when exactly one does, 0 otherwise. -/
def specsScore (spec : RequirementSpec) (c : ListingCandidate) : ℚ :=
  let bedOk := match spec.beds with
    | none => true
    | some need => match c.beds with
      | some has => need ≤ has
      | none => false
  let bathOk := match spec.baths with
    | none => true
    | some need => match c.baths with
      | some has => need ≤ has
      | none => false
  if bedOk && bathOk then 1 else if bedOk || bathOk then 1/2 else 0

/-- Modelled from the spec (§4.2 step 3): timeline score — 1 when the
candidate is available by the latest acceptable date (or either side is
undated), linear decay over the grace window otherwise. -/
def timelineScore (cfg : RankConfig) (spec : RequirementSpec)
    (c : ListingCandidate) : ℚ :=
  match spec.moveInLatest, c.availability with
  | some latest, some avail =>
      if avail ≤ latest then 1
      else max 0 (1 - (avail - latest) / cfg.graceWindow)
  | _, _ => 1

/-- Modelled from the spec (§4.2 step 3): one requested amenity is
satisfied when the candidate's flag matches the requirement. -/
def amenitySatisfied : TriState × Option Bool → Bool
  | (TriState.required, some true) => true
  | (TriState.declined, some false) => true
  | _ => false

/-- Modelled from the spec (§4.2 step 3): extras score — fraction of the
requested tri-state amenities satisfied (1 when none is requested). -/
def extrasScore (spec : RequirementSpec) (c : ListingCandidate) : ℚ :=
  let pairs := [(spec.parking, c.parking), (spec.pets, c.pets),
    (spec.washerDryer, c.washerDryer)]
  let requested := pairs.filter (fun p => decide (p.1 ≠ TriState.unspecified))
  match requested.length with
  | 0 => 1
  | n => ((requested.filter amenitySatisfied).length : ℚ) / (n : ℚ)

/-- Modelled from the spec (§4.2 steps 2–4): score one non-excluded
candidate — NER from the rent midpoint, the five component scores and the
weighted composite (weights 0.40/0.25/0.20/0.10/0.05). -/
def scoreCandidate (cfg : RankConfig) (spec : RequirementSpec)
    (c : ListingCandidate) : RankedMatch :=
  let mid := rentMidpoint (c.rent.getD (0, 0))
  let ner := netEffectiveRent mid c.special
  let p := proximityScore cfg c.distanceMiles
  let b := budgetScore spec ner
  let s := specsScore spec c
  let t := timelineScore cfg spec c
  let e := extrasScore spec c
  { cand := c, ner := ner, scoreProximity := p, scoreBudget := b,
    scoreSpecs := s, scoreTimeline := t, scoreExtras := e,
    composite := (2/5) * p + (1/4) * b + (1/5) * s + (1/10) * t + (1/20) * e,
    rank := 0, exclusionReason := none }

/-- Modelled from the spec (§4.2 step 4): "best-first" order — higher
composite first, ties broken by lower NER, then shorter distance
(unresolved last), then candidate identifier. -/
def rankedBefore (a b : RankedMatch) : Bool :=
  if a.composite ≠ b.composite then decide (b.composite < a.composite)
  else if a.ner ≠ b.ner then decide (a.ner < b.ner)
  else
    match a.cand.distanceMiles, b.cand.distanceMiles with
    | some da, some db =>
        if da ≠ db then decide (da < db) else decide (a.cand.id ≤ b.cand.id)
    | some _, none => true
    | none, some _ => false
    | none, none => decide (a.cand.id ≤ b.cand.id)

/-- Insertion into a list sorted by `le`. -/
def insertBy (le : α → α → Bool) (x : α) : List α → List α
  | [] => [x]
  | y :: ys => if le x y then x :: y :: ys else y :: insertBy le x ys

/-- Insertion sort by `le`. -/
def sortBy (le : α → α → Bool) : List α → List α
  | [] => []
  | x :: xs => insertBy le x (sortBy le xs)

/-- Assign dense ranks n, n+1, … down a sorted list. -/
def rankAssign : ℕ → List RankedMatch → List RankedMatch
  | _, [] => []
  | n, m :: ms => { m with rank := n } :: rankAssign (n + 1) ms

/-- Modelled from the spec: a RankedMatch for an excluded candidate —
reason set, not scored. -/
def excludedMatch (c : ListingCandidate) (reason : String) : RankedMatch :=
  { cand := c, ner := 0, scoreProximity := 0, scoreBudget := 0,
    scoreSpecs := 0, scoreTimeline := 0, scoreExtras := 0, composite := 0,
    rank := 0, exclusionReason := some reason }

/-- Modelled from the spec (§4.2): `rank` — exclusion pass, scoring of the
survivors, best-first sort with dense ranks, excluded entries appended
with their reasons. -/
def rank (cfg : RankConfig) (spec : RequirementSpec)
    (cands : List ListingCandidate) (prev : List String) : List RankedMatch :=
  let scored := (cands.filter
      (fun c => (exclusionReasonFor prev c).isNone)).map (scoreCandidate cfg spec)
  let ranked := rankAssign 1 (sortBy rankedBefore scored)
  let excluded := (cands.filter
      (fun c => (exclusionReasonFor prev c).isSome)).map
      (fun c => excludedMatch c ((exclusionReasonFor prev c).getD ""))
  ranked ++ excluded

/-- The non-excluded entries of a `rank` result. -/
def nonExcludedMatches (l : List RankedMatch) : List RankedMatch :=
  l.filter (fun m => m.exclusionReason.isNone)

/-- Modelled from the spec (§4.2 step 5): `selectBest` — the top-ranked
non-excluded candidate, `none` when nothing survives exclusion. -/
def selectBest (cfg : RankConfig) (spec : RequirementSpec)
    (cands : List ListingCandidate) (prev : List String) :
    Option RankedMatch :=
  (rank cfg spec cands prev).find? (fun m => m.exclusionReason.isNone)

/-! ## Concrete inputs used by the witness theorems. -/

/-- A small ranking configuration for concrete evaluations. -/
def cfgEx : RankConfig := { maxConsideredMiles := 10, graceWindow := 30 }

/-- A concrete requirement spec for concrete evaluations. -/
def specEx : RequirementSpec :=
  { budgetMin := some 1500, budgetMax := some 2200, moveInLatest := none,
    beds := some 2, baths := some 1, neighborhoods := ["Lakeview"],
    zips := [], parking := TriState.unspecified, pets := TriState.unspecified,
    washerDryer := TriState.unspecified }

/-- A concrete candidate that was previously offered (its id is in the
offer set used by the C5 witness). -/
def candEx : ListingCandidate :=
  { id := "L1", address := "123 Main St", neighborhood := "Lakeview",
    rent := some (2000, 2000), beds := some 2, baths := some 1,
    special := MoveInSpecial.monthsFree 1, distanceMiles := some 2,
    availability := none, parking := none, pets := none, washerDryer := none }

/-- A concrete candidate with an unresolved distance and a usable rent. -/
def candEx9 : ListingCandidate :=
  { id := "L2", address := "9 Elm St", neighborhood := "Logan Square",
    rent := some (1800, 1800), beds := some 2, baths := some 1,
    special := MoveInSpecial.noSpecial, distanceMiles := none,
    availability := none, parking := none, pets := none, washerDryer := none }

/-- The total-failure record produced by `extract_json_safely` on
unrecoverable input (its `raw_response` instantiated to a concrete
string), fed to `extract_property_info` in the C3 theorems. -/
def totalFailureRecord : JObj :=
  [("error".data, Json.str "Failed to parse ".data),
   ("raw_response".data, Json.str "garbage".data)]

/-- A concrete model reply whose JSON sits inside a code fence. -/
def fencedReply : List Char := "```json\n\x7b\"a\": 1\x7d\n```".data

/-! ## Supporting lemmas. -/

theorem getKey_setKey_self (d : JObj) (k : List Char) (v : Json) :
    getKey (setKey d k v) k = some v := by
  induction d with
  | nil => simp [setKey, getKey]
  | cons p rest ih =>
    obtain ⟨k', v'⟩ := p
    by_cases h : k' = k
    · simp [setKey, getKey, h]
    · simp [setKey, getKey, h, ih]

theorem getKey_setKey_ne (d : JObj) (k : List Char) (v : Json) (g : List Char)
    (h : g ≠ k) : getKey (setKey d k v) g = getKey d g := by
  have hkg : ¬ (k = g) := fun hh => h hh.symm
  induction d with
  | nil => simp [setKey, getKey, hkg]
  | cons p rest ih =>
    obtain ⟨k', v'⟩ := p
    by_cases hk : k' = k
    · subst hk
      simp [setKey, getKey, hkg]
    · by_cases hg : k' = g
      · simp [setKey, getKey, hk, hg, h]
      · simp [setKey, getKey, hk, hg, ih]

theorem hasKeyD_setKey_self (d : JObj) (k : List Char) (v : Json) :
    hasKeyD (setKey d k v) k = true := by
  simp [hasKeyD, getKey_setKey_self]

theorem hasKeyD_setKey_of (d : JObj) (k : List Char) (v : Json) (g : List Char)
    (h : hasKeyD d g = true) : hasKeyD (setKey d k v) g = true := by
  by_cases hg : g = k
  · subst hg; exact hasKeyD_setKey_self d g v
  · simpa [hasKeyD, getKey_setKey_ne d k v g hg] using h

theorem hasKeyD_specialHandleTail (d1 sub : JObj) (f g : List Char)
    (h : hasKeyD d1 g = true) :
    hasKeyD (specialHandleTail d1 sub f) g = true := by
  unfold specialHandleTail
  repeat' split
  all_goals first
    | exact h
    | exact hasKeyD_setKey_of _ _ _ _ h

theorem hasKeyD_specialHandle (d : JObj) (g f : List Char)
    (h : hasKeyD d f = true) : hasKeyD (specialHandle d g) f = true := by
  unfold specialHandle
  repeat' split
  all_goals first
    | exact h
    | exact hasKeyD_specialHandleTail _ _ _ _ (hasKeyD_setKey_of _ _ _ _ h)

theorem hasKeyD_foldl_specialHandle (fs : List (List Char)) (d : JObj)
    (f : List Char) (h : hasKeyD d f = true) :
    hasKeyD (fs.foldl specialHandle d) f = true := by
  induction fs generalizing d with
  | nil => exact h
  | cons g gs ih => exact ih _ (hasKeyD_specialHandle d g f h)

theorem hasKeyD_addDefault_of (d : JObj) (g f : List Char)
    (h : hasKeyD d f = true) : hasKeyD (addDefault d g) f = true := by
  unfold addDefault
  split
  · exact h
  · exact hasKeyD_setKey_of _ _ _ _ h

theorem hasKeyD_addDefault_self (d : JObj) (f : List Char) :
    hasKeyD (addDefault d f) f = true := by
  unfold addDefault
  split
  · assumption
  · exact hasKeyD_setKey_self _ _ _

theorem hasKeyD_foldl_addDefault_of (fs : List (List Char)) (d : JObj)
    (f : List Char) (h : hasKeyD d f = true) :
    hasKeyD (fs.foldl addDefault d) f = true := by
  induction fs generalizing d with
  | nil => exact h
  | cons g gs ih => exact ih _ (hasKeyD_addDefault_of d g f h)

theorem hasKeyD_foldl_addDefault (fs : List (List Char)) (d : JObj)
    (f : List Char) (hf : f ∈ fs) :
    hasKeyD (fs.foldl addDefault d) f = true := by
  induction fs generalizing d with
  | nil => cases hf
  | cons g gs ih =>
    rcases List.mem_cons.mp hf with rfl | hmem
    · exact hasKeyD_foldl_addDefault_of gs _ f (hasKeyD_addDefault_self d f)
    · exact ih _ hmem

theorem getKey_addDefault_ne (d : JObj) (g f : List Char) (h : g ≠ f) :
    getKey (addDefault d g) f = getKey d f := by
  unfold addDefault
  split
  · rfl
  · exact getKey_setKey_ne d g _ f (Ne.symm h)

theorem getKey_foldl_addDefault_of (fs : List (List Char)) (d : JObj)
    (f : List Char) (h : getKey d f = some (Json.obj [])) :
    getKey (fs.foldl addDefault d) f = some (Json.obj []) := by
  induction fs generalizing d with
  | nil => exact h
  | cons g gs ih =>
    apply ih
    by_cases hg : g = f
    · subst hg
      have hk : hasKeyD d g = true := by simp [hasKeyD, h]
      simpa [addDefault, hk] using h
    · rw [getKey_addDefault_ne d g f hg]; exact h

theorem getKey_foldl_addDefault (fs : List (List Char)) (d : JObj)
    (f : List Char) (hf : f ∈ fs) (hmiss : hasKeyD d f = false) :
    getKey (fs.foldl addDefault d) f = some (Json.obj []) := by
  induction fs generalizing d with
  | nil => cases hf
  | cons g gs ih =>
    by_cases hg : g = f
    · subst hg
      simp only [List.foldl_cons]
      apply getKey_foldl_addDefault_of
      unfold addDefault
      rw [hmiss]
      simp [getKey_setKey_self]
    · rcases List.mem_cons.mp hf with heq | hmem
      · exact absurd heq.symm hg
      · simp only [List.foldl_cons]
        apply ih _ hmem
        have hpres : getKey (addDefault d g) f = getKey d f :=
          getKey_addDefault_ne d g f hg
        simpa [hasKeyD, hpres] using hmiss

theorem getKey_specialHandleTail_ne (d1 sub : JObj) (f g : List Char)
    (hgf : g ≠ f) (h : getKey d1 g = some (Json.obj [])) :
    getKey (specialHandleTail d1 sub f) g = some (Json.obj []) := by
  unfold specialHandleTail
  repeat' split
  all_goals first
    | exact h
    | rw [getKey_setKey_ne d1 f _ g hgf]; exact h

theorem getKey_specialHandle (d : JObj) (g f : List Char)
    (hne : f ≠ g ++ "_error".data)
    (h : getKey d f = some (Json.obj [])) :
    getKey (specialHandle d g) f = some (Json.obj []) := by
  by_cases hgf : g = f
  · subst hgf
    unfold specialHandle
    rw [h]
    simp [hasKeyD, getKey]
    exact h
  · unfold specialHandle
    split
    · split
      · apply getKey_specialHandleTail_ne _ _ _ _ (fun hh => hgf hh.symm)
        rw [getKey_setKey_ne d (g ++ "_error".data) _ f hne]
        exact h
      · exact h
    · exact h

theorem getKey_foldl_specialHandle (fs : List (List Char)) (d : JObj)
    (f : List Char) (hne : ∀ g ∈ fs, f ≠ g ++ "_error".data)
    (h : getKey d f = some (Json.obj [])) :
    getKey (fs.foldl specialHandle d) f = some (Json.obj []) := by
  induction fs generalizing d with
  | nil => exact h
  | cons g gs ih =>
    simp only [List.foldl_cons]
    exact ih _ (fun g' hg' => hne g' (List.mem_cons_of_mem _ hg'))
      (getKey_specialHandle d g f (hne g (List.mem_cons_self _ _)) h)

theorem requiredFields_ne_err :
    ∀ f ∈ requiredFields, ∀ g ∈ requiredFields, f ≠ g ++ "_error".data := by
  decide

theorem hasKeyD_errRecord (msg : List Char) (f : List Char)
    (hf : f ∈ requiredFields) : hasKeyD (errRecord msg) f = true := by
  fin_cases hf <;> rfl

theorem getKey_errRecord (msg : List Char) (f : List Char)
    (hf : f ∈ requiredFields) : getKey (errRecord msg) f = some (Json.obj []) := by
  fin_cases hf <;> rfl

theorem mem_insertBy {α : Type _} (le : α → α → Bool) (x : α) (l : List α)
    (a : α) : a ∈ insertBy le x l ↔ a = x ∨ a ∈ l := by
  induction l with
  | nil => simp [insertBy]
  | cons y ys ih =>
    unfold insertBy
    split
    · simp [List.mem_cons]
    · simp only [List.mem_cons, ih]
      tauto

theorem mem_sortBy {α : Type _} (le : α → α → Bool) (l : List α) (a : α) :
    a ∈ sortBy le l ↔ a ∈ l := by
  induction l with
  | nil => simp [sortBy]
  | cons x xs ih =>
    unfold sortBy
    rw [mem_insertBy, ih, List.mem_cons]

theorem rankAssign_exists (l : List RankedMatch) (m₀ : RankedMatch)
    (h : m₀ ∈ l) : ∀ n, ∃ m ∈ rankAssign n l,
      m.cand = m₀.cand ∧ m.exclusionReason = m₀.exclusionReason ∧
      m.scoreProximity = m₀.scoreProximity ∧ m.ner = m₀.ner := by
  induction l with
  | nil => cases h
  | cons hd tl ih =>
    intro n
    rcases List.mem_cons.mp h with rfl | hmem
    · exact ⟨{ m₀ with rank := n }, List.mem_cons_self _ _, rfl, rfl, rfl, rfl⟩
    · obtain ⟨m, hm, hfields⟩ := ih hmem (n + 1)
      exact ⟨m, List.mem_cons_of_mem _ hm, hfields⟩

theorem rankAssign_forall (l : List RankedMatch) :
    ∀ n m, m ∈ rankAssign n l → ∃ m₀ ∈ l,
      m.cand = m₀.cand ∧ m.exclusionReason = m₀.exclusionReason := by
  induction l with
  | nil => intro n m hm; cases hm
  | cons hd tl ih =>
    intro n m hm
    rcases List.mem_cons.mp hm with rfl | hmem
    · exact ⟨hd, List.mem_cons_self _ _, rfl, rfl⟩
    · obtain ⟨m₀, hm₀, hfields⟩ := ih (n + 1) m hmem
      exact ⟨m₀, List.mem_cons_of_mem _ hm₀, hfields⟩

theorem charChunksGo_flatten (n : ℕ) (hn : 0 < n) :
    ∀ fuel (s : List Char), s.length < fuel →
      (charChunksGo fuel n s).flatten = s := by
  intro fuel
  induction fuel with
  | zero => intro s h; omega
  | succ fuel ih =>
    intro s h
    cases s with
    | nil => rfl
    | cons c cs =>
      have hd : ((c :: cs).drop n).length < fuel := by
        rw [List.length_drop]
        simp only [List.length_cons] at h ⊢
        omega
      simp only [charChunksGo, List.flatten_cons]
      rw [ih ((c :: cs).drop n) hd]
      exact List.take_append_drop n (c :: cs)

theorem charChunksGo_mem_length (n : ℕ) :
    ∀ fuel (s : List Char), ∀ c ∈ charChunksGo fuel n s, c.length ≤ n := by
  intro fuel
  induction fuel with
  | zero => intro s c hc; cases hc
  | succ fuel ih =>
    intro s c hc
    cases s with
    | nil => cases hc
    | cons x xs =>
      rcases List.mem_cons.mp hc with rfl | hmem
      · exact List.length_take_le n _
      · exact ih _ c hmem

/-! ## Claim theorems. -/

/-- A newline-free text splits into itself alone. -/
theorem splitOnNl_no_nl (s : List Char) (h : '\n' ∉ s) : splitOnNl s = [s] := by
  induction s with
  | nil => rfl
  | cons c cs ih =>
    have hc : ¬ (c = '\n') := fun hh => h (hh ▸ List.mem_cons_self c cs)
    have hcs : '\n' ∉ cs := fun hh => h (List.mem_cons_of_mem c hh)
    simp only [splitOnNl, if_neg hc, ih hcs]

/-- A single newline-free line longer than the limit is emitted whole
(plus the appended newline) by the line-accumulating splitter. -/
theorem lineChunks_single_long (limit : Nat) (line : List Char)
    (hnl : '\n' ∉ line) (hlong : limit < line.length + 1) :
    lineChunks limit line = [line ++ ['\n']] := by
  unfold lineChunks
  rw [splitOnNl_no_nl line hnl]
  unfold lineChunksGo
  rw [if_neg (by simp only [List.length_nil, Nat.zero_add]; omega)]
  have hne : (line ++ ['\n']).isEmpty = false := by
    cases line <;> rfl
  simp only [List.isEmpty_nil, if_true, List.nil_append]
  unfold lineChunksGo
  rw [hne]
  rfl

/-- C1 (counterexample): the claim that every chunk payload produced by
dispatch is at most the configured limit fails on the line-accumulating
splitter — a chunk holding a single 1950-character line is emitted as one
1951-character payload, over the 1900 limit. -/
theorem C1_counterexample :
    ¬ (∀ c ∈ lineChunks 1900 (List.replicate 1950 'a'), c.length ≤ 1900) := by
  intro h
  have hnl : '\n' ∉ List.replicate 1950 'a' := by
    intro hh
    rw [List.mem_replicate] at hh
    exact absurd hh.2 (by decide)
  have hmem : List.replicate 1950 'a' ++ ['\n'] ∈
      lineChunks 1900 (List.replicate 1950 'a') := by
    rw [lineChunks_single_long 1900 (List.replicate 1950 'a') hnl
      (by rw [List.length_replicate]; omega)]
    exact List.mem_singleton_self _
  have hle := h _ hmem
  rw [List.length_append, List.length_replicate] at hle
  omega

/-- C1 (amended): for the character-chunk fallback splitter (chunk size
1500), every payload is at most 1500 characters (hence under the 1900
limit), concatenating all payloads in index order reproduces the original
text exactly, and a 5000-character text produces at least 3 chunks. -/
theorem C1_charChunks_lossless (s : List Char) :
    (∀ c ∈ charChunks 1500 s, c.length ≤ 1500) ∧
    (charChunks 1500 s).flatten = s ∧
    (s.length = 5000 → 3 ≤ (charChunks 1500 s).length) := by
  have hall : ∀ c ∈ charChunks 1500 s, c.length ≤ 1500 :=
    fun c hc => charChunksGo_mem_length 1500 _ s c hc
  have hjoin : (charChunks 1500 s).flatten = s :=
    charChunksGo_flatten 1500 (by norm_num) _ s (Nat.lt_succ_self _)
  refine ⟨hall, hjoin, fun h5 => ?_⟩
  by_contra hlt
  push_neg at hlt
  have hsum : s.length = ((charChunks 1500 s).map List.length).sum := by
    conv_lhs => rw [← hjoin]
    exact List.length_flatten _
  have hb : ((charChunks 1500 s).map List.length).sum ≤
      ((charChunks 1500 s).map List.length).length * 1500 := by
    have hmem : ∀ x ∈ (charChunks 1500 s).map List.length, x ≤ 1500 := by
      intro x hx
      obtain ⟨c, hc, rfl⟩ := List.mem_map.mp hx
      exact hall c hc
    simpa [smul_eq_mul] using
      List.sum_le_card_nsmul ((charChunks 1500 s).map List.length) 1500 hmem
  rw [List.length_map] at hb
  omega

/-- C1 (witness): the amended theorem applied to the 5000-character text. -/
theorem C1_witness :
    (List.replicate 5000 'a').length = 5000 ∧
    3 ≤ (charChunks 1500 (List.replicate 5000 'a')).length :=
  ⟨List.length_replicate _ _,
    (C1_charChunks_lossless (List.replicate 5000 'a')).2.2
      (List.length_replicate _ _)⟩

/-- C2 (counterexample): on unrecoverable input `extract_json_safely`
returns a record missing the schema field `client_profile`, refuting
"every field named in the schema is present". -/
theorem C2_counterexample :
    jsonHasKey (extract_json_safely "garbage".data []) "client_profile".data
      = false := by
  rfl

/-- C2 (amended): `extract_json_safely` never raises (it is total) and, on
total failure of every cascade step, returns a record containing exactly
the `error` and `raw_response` keys — schema fields are not defaulted
there; key completion is performed by callers such as
`parse_json_response`. -/
theorem C2_total_failure (resp ctx : List Char)
    (h1 : jsonLoads resp = none) (h2 : fencedLoads resp = none)
    (h3 : fix_incomplete_json resp = none) :
    extract_json_safely resp ctx =
      Json.obj [("error".data, Json.str ("Failed to parse ".data ++ ctx)),
        ("raw_response".data, Json.str resp)] ∧
    ∀ f ∈ requiredFields, jsonHasKey (extract_json_safely resp ctx) f = false := by
  have hmain : extract_json_safely resp ctx =
      Json.obj [("error".data, Json.str ("Failed to parse ".data ++ ctx)),
        ("raw_response".data, Json.str resp)] := by
    simp [extract_json_safely, h1, h2, h3]
  refine ⟨hmain, ?_⟩
  intro f hf
  rw [hmain]
  fin_cases hf <;> rfl

/-- C2 (witness): the amended theorem applied to the input `garbage`,
with the key-absence clause instantiated at `inventory_matches`. -/
theorem C2_witness :
    extract_json_safely "garbage".data [] =
      Json.obj [("error".data, Json.str ("Failed to parse ".data ++ [])),
        ("raw_response".data, Json.str "garbage".data)] ∧
    jsonHasKey (extract_json_safely "garbage".data [])
      "inventory_matches".data = false :=
  ⟨(C2_total_failure "garbage".data [] rfl rfl rfl).1,
   (C2_total_failure "garbage".data [] rfl rfl rfl).2
     "inventory_matches".data (by simp [requiredFields])⟩

/-- C3 (counterexample): fed the total-failure record, langcahin's
`extract_property_info` fabricates the hard-coded property name
"Bristol Station" with a hard-coded address — refuting "the system never
fabricates a plausible-looking recommendation". -/
theorem C3_counterexample :
    (extract_property_info totalFailureRecord []).map
      (fun pi => (pyGet pi "property", pyGet pi "address")) =
    Except.ok (Json.str bristol,
      Json.str "704 Greenwood Cir, Naperville, IL 60563".data) := by
  rfl

/-- C3 (amended): when `find_property_match` cannot parse the model
response and no message is recoverable, the caller-facing message is the
fixed honest no-match statement; `extract_property_info`, however,
substitutes the hard-coded default "Bristol Station" when no property
name is recoverable. -/
theorem C3_honest_fallback (resp : List Char)
    (h1 : jsonLoads (find_property_match_clean resp) = none)
    (h2 : searchKeyStr "message".data false (find_property_match_clean resp)
      = none) :
    find_property_match_parse resp =
      Json.obj [("message".data, Json.str noMatchMessage)] ∧
    (extract_property_info totalFailureRecord []).map
      (fun pi => pyGet pi "property") = Except.ok (Json.str bristol) := by
  constructor
  · simp [find_property_match_parse, h1, h2]
  · rfl

/-- C3 (witness): the amended theorem applied to an unparseable reply. -/
theorem C3_witness :
    find_property_match_parse "  nonsense  ".data =
      Json.obj [("message".data, Json.str noMatchMessage)] ∧
    (extract_property_info totalFailureRecord []).map
      (fun pi => pyGet pi "property") = Except.ok (Json.str bristol) :=
  C3_honest_fallback "  nonsense  ".data rfl rfl

/-- C4: net effective rent follows the prompt's formula
`(monthlyRent × 12 − totalMoveInSavings) / 12` under a 12-month lease;
$2000/month with one month free gives 5500/3 = 1833.33…, and a candidate
with no special has NER equal to its monthly rent. -/
theorem C4_ner :
    (∀ rent sp, netEffectiveRent rent sp =
      (rent * 12 - totalMoveInSavings rent sp) / 12) ∧
    netEffectiveRent 2000 (MoveInSpecial.monthsFree 1) = 5500 / 3 ∧
    (∀ rent, netEffectiveRent rent MoveInSpecial.noSpecial = rent) := by
  refine ⟨fun _ _ => rfl, by norm_num [netEffectiveRent, totalMoveInSavings],
    fun rent => ?_⟩
  simp [netEffectiveRent, totalMoveInSavings]

/-- C5: a candidate whose identifier or normalized address appears in the
previous offers is excluded by `rank` with an exclusion reason set and
never appears among the non-excluded results. -/
theorem C5_previous_offers_excluded (cfg : RankConfig)
    (spec : RequirementSpec) (cands : List ListingCandidate)
    (prev : List String) (c : ListingCandidate)
    (hmem : c ∈ cands) (hoff : offeredPreviously prev c = true) :
    (∃ m ∈ rank cfg spec cands prev,
      m.cand = c ∧ m.exclusionReason.isSome = true) ∧
    ∀ m ∈ nonExcludedMatches (rank cfg spec cands prev), m.cand ≠ c := by
  have hreason : exclusionReasonFor prev c = some "previously offered" := by
    simp [exclusionReasonFor, hoff]
  constructor
  · refine ⟨excludedMatch c ((exclusionReasonFor prev c).getD ""), ?_, rfl, rfl⟩
    unfold rank
    apply List.mem_append_right
    apply List.mem_map_of_mem
    exact List.mem_filter.mpr ⟨hmem, by simp [hreason]⟩
  · intro m hm
    unfold nonExcludedMatches rank at hm
    obtain ⟨hmem', hisnone⟩ := List.mem_filter.mp hm
    rcases List.mem_append.mp hmem' with h1 | h2
    · obtain ⟨m₀, hm₀, hcand, hreason'⟩ := rankAssign_forall _ _ _ h1
      rw [mem_sortBy] at hm₀
      obtain ⟨c', hc', rfl⟩ := List.mem_map.mp hm₀
      intro heq
      have hceq : c' = c := by rw [← heq, hcand]; rfl
      subst hceq
      have hfilter := (List.mem_filter.mp hc').2
      rw [hreason] at hfilter
      cases hfilter
    · obtain ⟨c'', hc'', rfl⟩ := List.mem_map.mp h2
      simp [excludedMatch] at hisnone

/-- C5 (witness): the theorem applied to a concrete previously-offered
candidate. -/
theorem C5_witness :
    (∃ m ∈ rank cfgEx specEx [candEx] ["L1"],
      m.cand = candEx ∧ m.exclusionReason.isSome = true) ∧
    ∀ m ∈ nonExcludedMatches (rank cfgEx specEx [candEx] ["L1"]),
      m.cand ≠ candEx :=
  C5_previous_offers_excluded cfgEx specEx [candEx] ["L1"] candEx
    (List.mem_singleton_self _) (by decide)

/-- C6 (counterexample): a persistently failing transport sees the chunk's
content posted exactly once — the dispatcher never retries a chunk,
refuting "retried up to a fixed small bound". -/
theorem C6_counterexample :
    ¬ (2 ≤ ((sendDiscordSanityCheckNoteAlert (fun _ => SendOutcome.raise)
      "first chunk".data).2.length)) := by
  decide

/-- C6 (amended): a send failure on one chunk is caught after a single
attempt with that content (plus at most one simplified fallback post on an
HTTP 400), and delivery continues with every subsequent chunk — a failure
on one chunk never aborts the remainder of the dispatch. -/
theorem C6_no_abort (transport : List Char → SendOutcome)
    (chunks : List (List Char)) :
    (dispatchChunks transport chunks).length = chunks.length ∧
    ∀ r ∈ dispatchChunks transport chunks,
      r.2.length = 1 ∨ r.2.length = 2 := by
  constructor
  · simp [dispatchChunks]
  · intro r hr
    obtain ⟨c, hc, rfl⟩ := List.mem_map.mp hr
    simp only [sendDiscordSanityCheckNoteAlert]
    cases h : transport (prepareContent c) with
    | raise => simp
    | status code =>
      by_cases h4 : code = 400
      · subst h4
        cases h2 : transport simpleContent with
        | raise => simp [h2]
        | status c2 => simp [h2]
      · simp [h4]

/-- C6 (witness): the amended theorem applied to a one-chunk dispatch over
an always-raising transport. -/
theorem C6_witness :
    (sendDiscordSanityCheckNoteAlert (fun _ => SendOutcome.raise)
      "chunk a".data).2.length = 1 ∨
    (sendDiscordSanityCheckNoteAlert (fun _ => SendOutcome.raise)
      "chunk a".data).2.length = 2 :=
  (C6_no_abort (fun _ => SendOutcome.raise) ["chunk a".data]).2
    (sendDiscordSanityCheckNoteAlert (fun _ => SendOutcome.raise)
      "chunk a".data)
    (List.mem_singleton_self _)

/-- C7: the modelled `rank` is a pure function of its three inputs, so two
calls on identical requirement spec, candidate list and previous-offer set
give identical output lists and identical composite scores. -/
theorem C7_rank_deterministic (cfg : RankConfig) (spec : RequirementSpec)
    (cands : List ListingCandidate) (prev : List String)
    (r₁ r₂ : List RankedMatch)
    (h₁ : r₁ = rank cfg spec cands prev)
    (h₂ : r₂ = rank cfg spec cands prev) :
    r₁ = r₂ ∧ r₁.map RankedMatch.composite = r₂.map RankedMatch.composite := by
  subst h₁; subst h₂; exact ⟨rfl, rfl⟩

/-- C7 (witness): the theorem applied to a concrete input. -/
theorem C7_witness :
    rank cfgEx specEx [candEx] [] = rank cfgEx specEx [candEx] [] ∧
    (rank cfgEx specEx [candEx] []).map RankedMatch.composite =
      (rank cfgEx specEx [candEx] []).map RankedMatch.composite :=
  C7_rank_deterministic cfgEx specEx [candEx] [] _ _ rfl rfl

/-- C8 (counterexample): a successfully strict-parsed response carries no
`degraded` key at all — the result has no degraded/recoveredFields
metadata, refuting "returns with degraded=false". -/
theorem C8_counterexample :
    jsonHasKey (extract_json_safely "\x7b\"a\": 1\x7d".data [])
      "degraded".data = false := by
  rfl

/-- C8 (amended): `extract_json_safely` follows the ordered cascade — a
successful strict parse of the raw text (no fence stripping first) is
returned as is; only if it fails is the first fenced block extracted and
parsed; only if that also fails is `fix_incomplete_json` regex recovery
attempted, with the error record as last resort.  No degraded flag is
attached on any path. -/
theorem C8_cascade (resp ctx : List Char) :
    (∀ v, jsonLoads resp = some v → extract_json_safely resp ctx = v) ∧
    (jsonLoads resp = none → ∀ w, fencedLoads resp = some w →
      extract_json_safely resp ctx = w) ∧
    (jsonLoads resp = none → fencedLoads resp = none →
      extract_json_safely resp ctx =
        match fix_incomplete_json resp with
        | some d => Json.obj d
        | none =>
          Json.obj [("error".data, Json.str ("Failed to parse ".data ++ ctx)),
            ("raw_response".data, Json.str resp)]) := by
  refine ⟨?_, ?_, ?_⟩
  · intro v hv; simp [extract_json_safely, hv]
  · intro h1 w hw; simp [extract_json_safely, h1, hw]
  · intro h1 h2; simp [extract_json_safely, h1, h2]

/-- C8 (witness): the cascade's second step applied to a fenced reply. -/
theorem C8_witness :
    extract_json_safely fencedReply [] = Json.obj [("a".data, Json.num 1)] :=
  (C8_cascade fencedReply []).2.1 rfl (Json.obj [("a".data, Json.num 1)]) rfl

/-- C9: when either geocode call raises or yields no location, the
distance computation returns the infinity marker instead of raising; the
proximity score of an unresolved distance is 0, and such a candidate still
appears among the non-excluded results of `rank` (with proximity score 0),
never excluded for it. -/
theorem C9_unresolved_distance (geocode : List Char → GeoResult)
    (gd : ℚ × ℚ → ℚ × ℚ → ℚ) (ca pa : List Char) (cfg : RankConfig)
    (spec : RequirementSpec) (cands : List ListingCandidate)
    (prev : List String) (c : ListingCandidate)
    (hgeo : geocode ca = GeoResult.raise ∨ geocode ca = GeoResult.ok none ∨
      geocode pa = GeoResult.raise ∨ geocode pa = GeoResult.ok none)
    (hc : c ∈ cands) (hdist : c.distanceMiles = none)
    (hexc : exclusionReasonFor prev c = none) :
    calculate_neighborhood_proximity geocode gd ca pa = ⊤ ∧
    proximityScore cfg c.distanceMiles = 0 ∧
    ∃ m ∈ nonExcludedMatches (rank cfg spec cands prev),
      m.cand = c ∧ m.scoreProximity = 0 := by
  refine ⟨?_, ?_, ?_⟩
  · unfold calculate_neighborhood_proximity
    rcases hgeo with h | h | h | h
    · simp [h]
    · rw [h]
      cases hpa : geocode pa with
      | raise => rfl
      | ok pl => cases pl <;> rfl
    · cases hca : geocode ca with
      | raise => rfl
      | ok cl => rw [h]
    · cases hca : geocode ca with
      | raise => rfl
      | ok cl => rw [h]; cases cl <;> rfl
  · rw [hdist]; rfl
  · have hcf : c ∈ cands.filter (fun c => (exclusionReasonFor prev c).isNone) :=
      List.mem_filter.mpr ⟨hc, by simp [hexc]⟩
    have hsc : scoreCandidate cfg spec c ∈
        (cands.filter (fun c => (exclusionReasonFor prev c).isNone)).map
          (scoreCandidate cfg spec) :=
      List.mem_map_of_mem _ hcf
    have hsort : scoreCandidate cfg spec c ∈
        sortBy rankedBefore
          ((cands.filter (fun c => (exclusionReasonFor prev c).isNone)).map
            (scoreCandidate cfg spec)) :=
      (mem_sortBy _ _ _).mpr hsc
    obtain ⟨m, hm, hcand, hreason, hprox, hner⟩ :=
      rankAssign_exists _ _ hsort 1
    refine ⟨m, ?_, ?_, ?_⟩
    · unfold nonExcludedMatches rank
      apply List.mem_filter.mpr
      refine ⟨List.mem_append_left _ hm, ?_⟩
      have hnone : m.exclusionReason = none := by rw [hreason]; rfl
      simp [hnone]
    · rw [hcand]; rfl
    · have hps : (scoreCandidate cfg spec c).scoreProximity =
        proximityScore cfg c.distanceMiles := rfl
      rw [hprox, hps, hdist]
      rfl

/-- C9 (witness): the theorem applied to an always-raising geocoder and a
concrete candidate without a resolved distance. -/
theorem C9_witness :
    calculate_neighborhood_proximity (fun _ => GeoResult.raise)
      (fun _ _ => 0) "A St".data "B St".data = ⊤ ∧
    proximityScore cfgEx candEx9.distanceMiles = 0 ∧
    ∃ m ∈ nonExcludedMatches (rank cfgEx specEx [candEx9] []),
      m.cand = candEx9 ∧ m.scoreProximity = 0 :=
  C9_unresolved_distance (fun _ => GeoResult.raise) (fun _ _ => 0)
    "A St".data "B St".data cfgEx specEx [candEx9] [] candEx9
    (Or.inl rfl) (List.mem_singleton_self _) rfl rfl

/-- C10: for every input string, `parse_json_response` returns a record
containing all five required fields, and any field not recovered from a
parsed object input is defaulted to an empty dict. -/
theorem C10_required_fields (s : List Char) :
    (requiredFields.all (fun f => hasKeyD (parse_json_response s) f)) = true ∧
    ∀ f ∈ requiredFields, ∀ fields,
      jsonLoads (clean_ansi_codes s) = some (Json.obj fields) →
      hasKeyD fields f = false →
      getKey (parse_json_response s) f = some (Json.obj []) := by
  constructor
  · rw [List.all_eq_true]
    intro f hf
    simp only [parse_json_response]
    split
    · exact hasKeyD_errRecord _ f hf
    · split
      · exact hasKeyD_errRecord _ f hf
      · exact hasKeyD_foldl_specialHandle _ _ f
          (hasKeyD_foldl_addDefault _ _ f hf)
      · exact hasKeyD_errRecord _ f hf
  · intro f hf fields hparse hmiss
    simp only [parse_json_response]
    split
    · exact getKey_errRecord _ f hf
    · rw [hparse]
      exact getKey_foldl_specialHandle requiredFields _ f
        (fun g hg => requiredFields_ne_err f hf g hg)
        (getKey_foldl_addDefault requiredFields fields f hf hmiss)

/-- C10 (witness): the defaulting clause applied to a parsed object that
lacks `client_profile`. -/
theorem C10_witness :
    getKey (parse_json_response "\x7b\"team_analysis\": 1\x7d".data)
      "client_profile".data = some (Json.obj []) :=
  (C10_required_fields _).2 "client_profile".data (by simp [requiredFields])
    [("team_analysis".data, Json.num 1)] rfl rfl
